import Mathlib

/-!
Verification development for the skience2025 repository.

Shallow embedding of three Python modules:
* `src/05 StructuralHealth/Structural Characterization/functions_MA.py`
  (geometry helpers: `roof_edges2D`, `set_axes_equal`),
* `src/04 DAS/custom_util.py` (`apply_mapping`),
* `src/02 Noise and HVSR/Auto_process_HV.py` (`get_paramString`, `run_HV`
  window stepping, the top-level best-effort file loop).

Python floats are embedded as exact rationals (`ℚ`); the claims under
study concern exact constants, counts and structural facts, not rounding.
-/

namespace Skience

/-! ### Geometry helpers (`functions_MA.py`) -/

/-- Embedding of `roof_edges2D(mult, Lat, Lon)` from `functions_MA.py`
(lines 2-23).  Returns the 8 vertices in source order
N, E_1, E_2, W, S, E_5, E_6, E as `(x, y)` pairs. -/
def roof_edges2D (mult Lat Lon : ℚ) : List (ℚ × ℚ) :=
  let offsetLon := 681437.8 - Lon
  let offsetLat := 248919.2 - Lat
  let NLon := (681443.103 - offsetLon) * mult
  let NLat := (248954.576 - offsetLat) * mult
  let ELon := (681462.783 - offsetLon) * mult
  let ELat := (248942.503 - offsetLat) * mult
  let E_1 := (681429.922 - offsetLon) * mult
  let N_1 := (248934.161 - offsetLat) * mult
  let E_2 := (681431.376 - offsetLon) * mult
  let N_2 := (248912.610 - offsetLat) * mult
  let WLon := (681426.233 - offsetLon) * mult
  let WLat := (248895.830 - offsetLat) * mult
  let SLon := (681447.497 - offsetLon) * mult
  let SLat := (248889.417 - offsetLat) * mult
  let E_5 := (681460.536 - offsetLon) * mult
  let N_5 := (248909.601 - offsetLat) * mult
  let E_6 := (681459.040 - offsetLon) * mult
  let N_6 := (248927.087 - offsetLat) * mult
  [(NLon, NLat), (E_1, N_1), (E_2, N_2), (WLon, WLat),
   (SLon, SLat), (E_5, N_5), (E_6, N_6), (ELon, ELat)]

/-- The state of a matplotlib 3D axis as read and written by
`set_axes_equal`: the X, Y and Z display limits. -/
structure Axis3D where
  xlim : ℚ × ℚ
  ylim : ℚ × ℚ
  zlim : ℚ × ℚ
deriving DecidableEq

/-- Embedding of `set_axes_equal(ax)` from `functions_MA.py` (lines 60-82):
takes the larger of the X and Y ranges, halves it to a radius, and
re-centers both X and Y limits on their original midpoints at that common
radius.  The Z limits are not touched by the source. -/
def set_axes_equal (ax : Axis3D) : Axis3D :=
  let x_range := |ax.xlim.2 - ax.xlim.1|
  let x_middle := (ax.xlim.1 + ax.xlim.2) / 2
  let y_range := |ax.ylim.2 - ax.ylim.1|
  let y_middle := (ax.ylim.1 + ax.ylim.2) / 2
  let plot_radius := 0.5 * max x_range y_range
  { ax with
    xlim := (x_middle - plot_radius, x_middle + plot_radius)
    ylim := (y_middle - plot_radius, y_middle + plot_radius) }

/-! ### DAS channel mapping (`custom_util.py`) -/

/-- One row of the 6-column segment table read by `apply_mapping`
(`custom_util.py` lines 10-17): start longitude `x1`, start latitude
`y1`, start along-fiber distance `d1`, end longitude `x2`, end latitude
`y2`, end along-fiber distance `d2`. -/
structure Segment where
  x1 : ℚ
  y1 : ℚ
  d1 : ℚ
  x2 : ℚ
  y2 : ℚ
  d2 : ℚ

/-- Embedding of `np.abs` on a single rational value. -/
def absQ (q : ℚ) : ℚ := if q < 0 then -q else q

/-- Scan underlying `np.argmin`: walk the remaining values keeping the
index of the least value seen so far; a strict comparison keeps the first
occurrence of the minimum, as numpy does. -/
def argminAbsAux (d : ℚ) : List ℚ → ℕ → ℕ → ℚ → ℕ
  | [], _, best, _ => best
  | c :: cs, i, best, bestVal =>
    if absQ (c - d) < bestVal then argminAbsAux d cs (i + 1) i (absQ (c - d))
    else argminAbsAux d cs (i + 1) best bestVal

/-- Embedding of `np.argmin(np.abs(channels_dd_original - d))` from `custom_util.py`
(lines 32-33): the first channel index whose native distance is nearest to
`d` (0 on an empty coordinate, where numpy would instead raise). -/
def argminAbs (cs : List ℚ) (d : ℚ) : ℕ :=
  match cs with
  | [] => 0
  | c :: rest => argminAbsAux d rest 1 0 (absQ (c - d))

/-- The five lists accumulated by the tie-point loop of `apply_mapping`
(`custom_util.py` lines 23-57). -/
structure Ties where
  tie_indices : List ℤ
  tie_distances : List ℚ
  tie_lat : List ℚ
  tie_lon : List ℚ
  mapped_ranges : List (ℕ × ℕ)

/-- The tie-point loop of `apply_mapping` (`custom_util.py` lines 31-57),
carrying the running output-channel counter `icount`.  Per segment: one
start tie at `icount`, then `icount += i2 - i1`; if there is a following
segment and `d2 ≠` its `d1`, a gap tie at `icount` and `icount += 1`; for
the final segment a closing end tie at `icount`; the raw range `(i1, i2)`
is recorded for every segment. -/
def buildTiesAux (cs : List ℚ) : ℤ → List Segment → Ties
  | _, [] => ⟨[], [], [], [], []⟩
  | icount, s :: rest =>
    let i1 := argminAbs cs s.d1
    let i2 := argminAbs cs s.d2
    let nchan : ℤ := (i2 : ℤ) - (i1 : ℤ)
    match rest with
    | [] =>
      ⟨[icount, icount + nchan], [s.d1, s.d2], [s.y1, s.y2],
       [s.x1, s.x2], [(i1, i2)]⟩
    | s2 :: rest2 =>
      if s.d2 ≠ s2.d1 then
        let t := buildTiesAux cs (icount + nchan + 1) (s2 :: rest2)
        ⟨icount :: (icount + nchan) :: t.tie_indices,
         s.d1 :: s.d2 :: t.tie_distances,
         s.y1 :: s.y2 :: t.tie_lat,
         s.x1 :: s.x2 :: t.tie_lon,
         (i1, i2) :: t.mapped_ranges⟩
      else
        let t := buildTiesAux cs (icount + nchan) (s2 :: rest2)
        ⟨icount :: t.tie_indices,
         s.d1 :: t.tie_distances,
         s.y1 :: t.tie_lat,
         s.x1 :: t.tie_lon,
         (i1, i2) :: t.mapped_ranges⟩

/-- The tie-point loop of `apply_mapping` started with `icount = 0`
(`custom_util.py` line 23). -/
def buildTies (cs : List ℚ) (segs : List Segment) : Ties :=
  buildTiesAux cs 0 segs

/-- The number of adjacent segment pairs with a distance gap
(`d2[i] ≠ d1[i+1]`). -/
def gapCount : List Segment → ℕ
  | [] => 0
  | [_] => 0
  | s :: s2 :: rest => (if s.d2 ≠ s2.d1 then 1 else 0) + gapCount (s2 :: rest)

/-- The slice-bound adjustment loop of `apply_mapping` (`custom_util.py`
lines 60-69): for each recorded raw range `(i0, i1)`, the upper bound is
incremented when the range is the last one, or when the next range's lower
bound differs from `i1`. -/
def adjustRanges : List (ℕ × ℕ) → List (ℕ × ℕ)
  | [] => []
  | [(i0, i1)] => [(i0, i1 + 1)]
  | (i0, i1) :: (j0, j1) :: rest =>
    (i0, if i1 ≠ j0 then i1 + 1 else i1) :: adjustRanges ((j0, j1) :: rest)

/-- Python slicing `da[:, i0:i1]` along a channel axis of `n` channels:
the raw channel indices `i0, ..., min i1 n - 1`. -/
def sliceChannels (n i0 i1 : ℕ) : List ℕ :=
  ((List.range n).drop i0).take (i1 - i0)

/-- The extraction-and-concatenation loop of `apply_mapping`
(`custom_util.py` lines 60-75), tracked on the channel axis: the raw
channel indices of the stitched output array, in output order, for an
input array with `n` raw channels. -/
def extractChannels (n : ℕ) (ranges : List (ℕ × ℕ)) : List ℕ :=
  ((adjustRanges ranges).map (fun r => sliceChannels n r.1 r.2)).flatten

set_option linter.unusedVariables false in
/-- The segment-table load of `apply_mapping` (`custom_util.py` lines
8-10): `np.loadtxt("good_segments.txt")` is called with the literal file
name; the `segments_filename` parameter is never consulted.  `fs` models
the file system, mapping a file name to its parsed 6-column rows. -/
def apply_mappingSegments (fs : String → List Segment)
    (segments_filename : String) : List Segment :=
  fs "good_segments.txt"

/-- Native distance coordinate used in the concrete tie-count instances:
ten channels at distances 0, ..., 9. -/
def chan10 : List ℚ := [0, 1, 2, 3, 4, 5, 6, 7, 8, 9]

/-- Three segments with no distance gap between consecutive segments. -/
def segsNoGap : List Segment :=
  [⟨0, 0, 0, 0, 0, 3⟩, ⟨0, 0, 3, 0, 0, 6⟩, ⟨0, 0, 6, 0, 0, 9⟩]

/-- Three segments where every adjacent pair has a distance gap. -/
def segsAllGap : List Segment :=
  [⟨0, 0, 0, 0, 0, 2⟩, ⟨0, 0, 3, 0, 0, 5⟩, ⟨0, 0, 6, 0, 0, 8⟩]

/-- Native distance coordinate for the single-segment slicing instance:
52 channels at distances 0, ..., 51. -/
def chan52 : List ℚ :=
  [0, 1, 2, 3, 4, 5, 6, 7, 8, 9, 10, 11, 12, 13, 14, 15, 16, 17,
   18, 19, 20, 21, 22, 23, 24, 25, 26, 27, 28, 29, 30, 31, 32, 33,
   34, 35, 36, 37, 38, 39, 40, 41, 42, 43, 44, 45, 46, 47, 48, 49,
   50, 51]

/-- A single segment whose distances map to raw channel range [10, 50]. -/
def segSingle : List Segment := [⟨0, 0, 10, 0, 0, 50⟩]

/-! ### HVSR batch driver (`Auto_process_HV.py`) -/

/-- The number of iterations of `np.arange(start, stop, step)` for a
positive step: `⌈(stop - start) / step⌉`, clamped at zero. -/
def numWindows (start stop step : ℚ) : ℕ :=
  (⌈(stop - start) / step⌉).toNat

/-- Fixed-step iteration from `cur` towards `stop` in increments of
`step`, with structural fuel; `arange` supplies enough fuel for the
iteration to run to completion. -/
def arangeAux (step stop : ℚ) : ℕ → ℚ → List ℚ
  | 0, _ => []
  | fuel + 1, cur =>
    if cur < stop then cur :: arangeAux step stop fuel (cur + step) else []

/-- Embedding of `np.arange(start, end, process_len)` as iterated by the window loop
of `run_HV` (`Auto_process_HV.py` line 58): the window start times
`start, start + step, ...` strictly below `stop`. -/
def arange (start stop step : ℚ) : List ℚ :=
  arangeAux step stop (numWindows start stop step) start

set_option linter.unusedVariables false in
/-- The processing-window start times iterated by the loop of `run_HV`
(`Auto_process_HV.py` lines 52-64), for a stream running from `start` to
`stop` (seconds) and a window length of `process_len` seconds. -/
def run_HV_windows (start stop process_len : ℚ) : List ℚ :=
  arange start stop process_len

/-- The named parameters substituted into the parameter-file template by
`run_HV` (`Auto_process_HV.py` lines 70-92), each already rendered to the
text Python's `str.format` would insert. -/
structure HVParams where
  tStart : String
  tEnd : String
  winLen : String
  overlap : String
  threshold : String
  threshold_pct : String
  KO : String
  minFreq : String
  maxFreq : String
  N_samples : String
  horizontals : String
  azimuth : String
  rotSteps : String
  rej_min_freq : String
  rej_max_freq : String
  rej_stdev : String
  rej_it : String

/-- One chunk of a template line: literal text, or a `\x7bname\x7d`
placeholder, embedded as the selector of the named parameter. -/
inductive Chunk
  | lit (s : String)
  | hole (f : HVParams → String)

/-- The multiline template of `get_paramString` (`Auto_process_HV.py`
lines 33-41), split at its `\n` separators: one entry per line, each line
an alternation of literal text and named placeholders, transcribed
verbatim (including the four trailing spaces on the first line).  The
source string ends with a final `\n`, so the rendered file is each line
followed by a newline. -/
def paramsStringLines : List (List Chunk) :=
  [[.lit "PARAMETERS_VERSION=1    "],
   [.lit "FROM_TIME_TYPE=Absolute"],
   [.lit "FROM_TIME_TEXT=", .hole (·.tStart)],
   [.lit "TO_TIME_TYPE=Absolute"],
   [.lit "TO_TIME_TEXT=", .hole (·.tEnd)],
   [.lit "REFERENCE="],
   [.lit "COMMON_TIME_WINDOWS=false"],
   [.lit "WINDOW_LENGTH_TYPE=Exactly"],
   [.lit "WINDOW_MIN_LENGTH(s)=", .hole (·.winLen)],
   [.lit "WINDOW_MAX_LENGTH(s)=", .hole (·.winLen)],
   [.lit "WINDOW_MAX_COUNT=0"],
   [.lit "WINDOW_MAXIMUM_PRIME_FACTOR=11"],
   [.lit "BAD_SAMPLE_TOLERANCE (s)=0"],
   [.lit "BAD_SAMPLE_GAP (s)=0"],
   [.lit "WINDOW_OVERLAP (%)=", .hole (·.overlap)],
   [.lit "BAD_SAMPLE_THRESHOLD_TYPE=", .hole (·.threshold)],
   [.lit "BAD_SAMPLE_THRESHOLD_VALUE (%)=", .hole (·.threshold_pct)],
   [.lit "ANTI-TRIGGERING_ON_RAW_SIGNAL (y/n)=n"],
   [.lit "ANTI-TRIGGERING_ON_FILTERED_SIGNAL (y/n)=n"],
   [.lit "SEISMIC_EVENT_TRIGGER (y/n)=n"],
   [.lit "SEISMIC_EVENT_DELAY (s)=-0.1"],
   [.lit "WINDOW_TYPE=Tukey"],
   [.lit "WINDOW_REVERSED=n"],
   [.lit "WINDOW_ALPHA=0.1"],
   [.lit "SMOOTHING_METHOD=Function"],
   [.lit "SMOOTHING_WIDTH_TYPE=Log"],
   [.lit "SMOOTHING_WIDTH=", .hole (·.KO)],
   [.lit "SMOOTHING_SCALE_TYPE=Log"],
   [.lit "SMOOTHING_WINDOW_TYPE=KonnoOhmachi"],
   [.lit "SMOOTHING_WINDOW_REVERSED=n"],
   [.lit "MINIMUM_FREQUENCY=", .hole (·.minFreq)],
   [.lit "MAXIMUM_FREQUENCY=", .hole (·.maxFreq)],
   [.lit "SCALE_TYPE_FREQUENCY=Log"],
   [.lit "STEP_TYPE_FREQUENCY=Count"],
   [.lit "SAMPLES_NUMBER_FREQUENCY=", .hole (·.N_samples)],
   [.lit "#STEP_FREQUENCY=1.00231"],
   [.lit "HIGH_PASS_FREQUENCY=0"],
   [.lit "HORIZONTAL_COMPONENTS=", .hole (·.horizontals)],
   [.lit "HORIZONTAL_AZIMUTH=", .hole (·.azimuth)],
   [.lit "ROTATION_STEP=", .hole (·.rotSteps)],
   [.lit "FREQUENCY_WINDOW_REJECTION_MINIMUM_FREQUENCY=",
    .hole (·.rej_min_freq)],
   [.lit "FREQUENCY_WINDOW_REJECTION_MAXIMUM_FREQUENCY=",
    .hole (·.rej_max_freq)],
   [.lit "FREQUENCY_WINDOW_REJECTION_STDDEV_FACTOR=", .hole (·.rej_stdev)],
   [.lit "FREQUENCY_WINDOW_REJECTION_MAXIMUM_ITERATIONS=",
    .hole (·.rej_it)]]

/-- Render one template line under a parameter assignment: literal chunks
verbatim, placeholder chunks replaced by the named parameter's text. -/
def renderLine (p : HVParams) (cs : List Chunk) : String :=
  cs.foldl (fun acc c => acc ++ match c with
    | Chunk.lit s => s
    | Chunk.hole f => f p) ""

/-- Rendering of `get_paramString().format(...)`: the rendered parameter
file, line by line. -/
def renderParams (p : HVParams) : List String :=
  paramsStringLines.map (renderLine p)

/-- The parameter set of testable property §8.1 of the specification:
`winLen = 60`, `KO = 0.2`, and the other documented values, each as the
text `str.format` inserts for it. -/
def claimParams : HVParams :=
  { tStart := "20230101120000.00"
    tEnd := "20230101130000.00"
    winLen := "60"
    overlap := "50"
    threshold := "RelativeSampleThreshold"
    threshold_pct := "0.5"
    KO := "0.2"
    minFreq := "0.2"
    maxFreq := "50"
    N_samples := "500"
    horizontals := "Squared"
    azimuth := "0"
    rotSteps := "10"
    rej_min_freq := "0.5"
    rej_max_freq := "50"
    rej_stdev := "1.8"
    rej_it := "500" }

/-- The per-file try/except loop at the bottom of `Auto_process_HV.py`
(lines 267-275): each discovered base pattern is attempted with `run_HV`;
an exception (`Except.error`) aborts only that file and the loop
continues with the next one. -/
def mainLoop {F E R : Type} (runHV : F → Except E R) : List F → List R
  | [] => []
  | f :: fs =>
    match runHV f with
    | Except.ok r => r :: mainLoop runHV fs
    | Except.error _ => mainLoop runHV fs

/-- The whole driver tail (`Auto_process_HV.py` lines 267-277): run the
per-file loop over all discovered files, then print `"Job Done"`. -/
def driver {F E R : Type} (runHV : F → Except E R) (files : List F) :
    List R × String :=
  (mainLoop runHV files, "Job Done")

end Skience

namespace Skience

/-- C7: `roof_edges2D(mult=1, Lat=248919.2, Lon=681437.8)` — the origin set
exactly to the hard-coded default — returns the 8 hard-coded absolute
survey-coordinate vertices, in the order N, E_1, E_2, W, S, E_5, E_6, E,
with first vertex `(681443.103, 248954.576)`. -/
theorem roof_edges2D_identity_origin :
    roof_edges2D 1 248919.2 681437.8 =
      [(681443.103, 248954.576), (681429.922, 248934.161),
       (681431.376, 248912.610), (681426.233, 248895.830),
       (681447.497, 248889.417), (681460.536, 248909.601),
       (681459.040, 248927.087), (681462.783, 248942.503)] := by
  simp only [roof_edges2D, List.cons.injEq, Prod.mk.injEq, and_true]
  norm_num

/-- C8: every coordinate of every vertex of
`roof_edges2D(mult=2, Lat=0, Lon=0)` is exactly twice the corresponding
coordinate of `roof_edges2D(mult=1, Lat=0, Lon=0)`. -/
theorem roof_edges2D_mult_two_doubles :
    roof_edges2D 2 0 0 =
      (roof_edges2D 1 0 0).map (fun p => (2 * p.1, 2 * p.2)) := by
  simp only [roof_edges2D, List.map, List.cons.injEq, Prod.mk.injEq, and_true]
  norm_num

/-- C10: for every `Lat` and `Lon`, `roof_edges2D(mult=1, Lat, Lon)` is
`roof_edges2D(mult=1, Lat=0, Lon=0)` translated componentwise by
`(Lon, Lat)`. -/
theorem roof_edges2D_translation (Lat Lon : ℚ) :
    roof_edges2D 1 Lat Lon =
      (roof_edges2D 1 0 0).map (fun p => (p.1 + Lon, p.2 + Lat)) := by
  simp only [roof_edges2D, List.map, List.cons.injEq, Prod.mk.injEq, and_true]
  repeat' apply And.intro
  all_goals ring_nf

/-- Witness for C10 at the concrete offset `(Lat, Lon) = (5, 7)`. -/
theorem roof_edges2D_translation_witness :
    roof_edges2D 1 5 7 =
      (roof_edges2D 1 0 0).map (fun p => (p.1 + 7, p.2 + 5)) :=
  roof_edges2D_translation 5 7

/-- C9: `set_axes_equal` is idempotent — applying it twice yields the same
X and Y limits as applying it once — and neither application modifies the
Z limits. -/
theorem set_axes_equal_idempotent (ax : Axis3D) :
    set_axes_equal (set_axes_equal ax) = set_axes_equal ax ∧
      (set_axes_equal ax).zlim = ax.zlim := by
  obtain ⟨⟨x1, x2⟩, ⟨y1, y2⟩, z⟩ := ax
  refine ⟨?_, rfl⟩
  have hr : (0 : ℚ) ≤ 0.5 * max |x2 - x1| |y2 - y1| := by positivity
  simp only [set_axes_equal]
  set r := 0.5 * max |x2 - x1| |y2 - y1| with hrdef
  have hx : |x1 + x2| * 2⁻¹ + r - (|x1 + x2| * 2⁻¹ - r) = 2 * r := by ring
  have habs : ∀ m : ℚ, |m + r - (m - r)| = 2 * r := by
    intro m
    have : m + r - (m - r) = 2 * r := by ring
    rw [this, abs_of_nonneg (by linarith)]
  have hmax : max (2 * r) (2 * r) = 2 * r := max_self _
  simp only [habs, hmax]
  have hhalf : (0.5 : ℚ) * (2 * r) = r := by ring
  rw [hhalf]
  have hmid : ∀ m : ℚ, (m - r + (m + r)) / 2 = m := by intro m; ring
  simp only [hmid]

/-- Witness for C9 at a concrete axis state. -/
theorem set_axes_equal_idempotent_witness :
    set_axes_equal (set_axes_equal ⟨(0, 4), (1, 3), (2, 5)⟩) =
        set_axes_equal ⟨(0, 4), (1, 3), (2, 5)⟩ ∧
      (set_axes_equal ⟨(0, 4), (1, 3), (2, 5)⟩).zlim = (2, 5) :=
  set_axes_equal_idempotent ⟨(0, 4), (1, 3), (2, 5)⟩

/-- C1 (evidence for the defect): the segment table `apply_mapping` loads
comes from the literal file "good_segments.txt" whatever the value of
`segments_filename`; with a file system where "good_segments.txt" and
"other_segments.txt" hold distinct tables, passing
`segments_filename = "other_segments.txt"` still returns the
"good_segments.txt" table. -/
theorem apply_mapping_ignores_filename :
    (∀ (fs : String → List Segment) (name : String),
        apply_mappingSegments fs name = fs "good_segments.txt") ∧
      apply_mappingSegments
          (fun name =>
            if name = "good_segments.txt" then segsNoGap else segsAllGap)
          "other_segments.txt" = segsNoGap ∧
      segsNoGap ≠ segsAllGap := by
  refine ⟨fun fs name => rfl, by simp [apply_mappingSegments], ?_⟩
  norm_num [segsNoGap, segsAllGap, Segment.mk.injEq]

/-- Tie-count invariant of the tie-point loop: for a nonempty segment
list, the loop emits `n + g + 1` tie indices, where `g` counts the
adjacent pairs with a distance gap. -/
theorem buildTiesAux_tie_length (cs : List ℚ) (segs : List Segment) :
    ∀ icount : ℤ, segs ≠ [] →
      (buildTiesAux cs icount segs).tie_indices.length
        = segs.length + gapCount segs + 1 := by
  induction segs with
  | nil => intro _ h; simp at h
  | cons s rest ih =>
    intro icount _
    cases rest with
    | nil => simp [buildTiesAux, gapCount]
    | cons s2 rest2 =>
      rcases eq_or_ne s.d2 s2.d1 with hgap | hgap
      · simp [buildTiesAux, hgap, gapCount, ih]
        omega
      · simp [buildTiesAux, hgap, gapCount, ih]
        omega

/-- C2: for every segment file with `n ≥ 1` rows the tie-point loop of
`apply_mapping` produces exactly `n + g + 1` tie points, `g` being the
number of adjacent pairs with `d2[i] ≠ d1[i+1]`; in particular 3 gap-free
segments yield exactly 4 ties, monotonically increasing in channel index,
and 3 all-gap segments yield exactly 6 ties. -/
theorem apply_mapping_tie_count :
    (∀ (cs : List ℚ) (segs : List Segment) (icount : ℤ), segs ≠ [] →
        (buildTiesAux cs icount segs).tie_indices.length
          = segs.length + gapCount segs + 1) ∧
      gapCount segsNoGap = 0 ∧
      (buildTies chan10 segsNoGap).tie_indices = [0, 3, 6, 9] ∧
      (buildTies chan10 segsNoGap).tie_indices.length = 4 ∧
      List.Chain' (· < ·) (buildTies chan10 segsNoGap).tie_indices ∧
      gapCount segsAllGap = 2 ∧
      (buildTies chan10 segsAllGap).tie_indices = [0, 2, 3, 5, 6, 8] ∧
      (buildTies chan10 segsAllGap).tie_indices.length = 6 := by
  have hng : (buildTies chan10 segsNoGap).tie_indices = [0, 3, 6, 9] := by
    norm_num [buildTies, buildTiesAux, argminAbs, argminAbsAux, absQ,
      chan10, segsNoGap]
  have hag : (buildTies chan10 segsAllGap).tie_indices = [0, 2, 3, 5, 6, 8] := by
    norm_num [buildTies, buildTiesAux, argminAbs, argminAbsAux, absQ,
      chan10, segsAllGap]
  refine ⟨fun cs segs icount h => buildTiesAux_tie_length cs segs icount h,
    ?_, hng, ?_, ?_, ?_, hag, ?_⟩
  · norm_num [gapCount, segsNoGap]
  · rw [hng]; rfl
  · rw [hng]; norm_num [List.chain'_cons]
  · norm_num [gapCount, segsAllGap]
  · rw [hag]; rfl

/-- Witness for C2's universally quantified part at the 3-segment
gap-free instance. -/
theorem apply_mapping_tie_count_witness :
    segsNoGap ≠ [] ∧
      (buildTiesAux chan10 0 segsNoGap).tie_indices.length
        = segsNoGap.length + gapCount segsNoGap + 1 :=
  ⟨by simp [segsNoGap],
   apply_mapping_tie_count.1 chan10 segsNoGap 0 (by simp [segsNoGap])⟩

/-- Per-index characterization of the slice-bound adjustment: the lower
bound is kept and the upper bound is incremented exactly when the range
is the last one or the next range's lower bound differs from it. -/
theorem adjustRanges_get_eq (ranges : List (ℕ × ℕ)) :
    ∀ i : ℕ, i < ranges.length →
      (adjustRanges ranges).get? i =
        (ranges.get? i).map (fun r =>
          (r.1,
            if i = ranges.length - 1 ∨
                (ranges.get? (i + 1)).map Prod.fst ≠ some r.2
            then r.2 + 1 else r.2)) := by
  induction ranges with
  | nil => intro i h; simp at h
  | cons r tail ih =>
    intro i h
    obtain ⟨r0, r1⟩ := r
    cases tail with
    | nil =>
      cases i with
      | zero => simp [adjustRanges]
      | succ j => simp at h
    | cons r2 rest =>
      obtain ⟨s0, s1⟩ := r2
      cases i with
      | zero =>
        rcases eq_or_ne r1 s0 with hc | hc
        · simp [adjustRanges, hc]
        · simp [adjustRanges, hc, Ne.symm hc]
      | succ j =>
        have hj : j < ((s0, s1) :: rest : List (ℕ × ℕ)).length := by
          simpa using Nat.lt_of_succ_lt_succ h
        have htail := ih j hj
        have hL : (adjustRanges ((r0, r1) :: (s0, s1) :: rest)).get? (j + 1)
            = (adjustRanges ((s0, s1) :: rest)).get? j := by
          simp [adjustRanges]
        have hg : (((r0, r1) :: (s0, s1) :: rest : List (ℕ × ℕ))).get? (j + 2)
            = (((s0, s1) :: rest : List (ℕ × ℕ))).get? j.succ := rfl
        rw [hL, htail]
        set x : ℕ × ℕ := ((s0, s1) :: rest : List (ℕ × ℕ)).get ⟨j, hj⟩ with hxdef
        have hx : ((s0, s1) :: rest : List (ℕ × ℕ)).get? j = some x :=
          List.get?_eq_get hj
        have hget : (((r0, r1) :: (s0, s1) :: rest : List (ℕ × ℕ))).get? (j + 1)
            = some x := hx
        rw [hx, hget]
        simp only [Option.map_some']
        have hcond : (j + 1 = ((r0, r1) :: (s0, s1) :: rest : List (ℕ × ℕ)).length - 1 ∨
              ((((r0, r1) :: (s0, s1) :: rest : List (ℕ × ℕ))).get? (j + 1 + 1)).map
                Prod.fst ≠ some x.2)
            ↔ (j = ((s0, s1) :: rest : List (ℕ × ℕ)).length - 1 ∨
              ((((s0, s1) :: rest : List (ℕ × ℕ))).get? (j + 1)).map
                Prod.fst ≠ some x.2) := by
          apply or_congr
          · simp only [List.length_cons]
            omega
          · rw [hg]
        simp only [hcond]

/-- C3: the slice extracted for a recorded raw-channel range `[i0, i1]`
has its upper bound extended by one exactly when the range is the last
one or when the next range's lower bound differs from `i1`; in
particular, a single-segment file whose distances map to raw channel
range [10, 50] produces exactly 41 output channels along the distance
axis, including raw channel index 50. -/
theorem apply_mapping_slice_bounds :
    (∀ (ranges : List (ℕ × ℕ)) (i : ℕ), i < ranges.length →
        (adjustRanges ranges).get? i =
          (ranges.get? i).map (fun r =>
            (r.1,
              if i = ranges.length - 1 ∨
                  (ranges.get? (i + 1)).map Prod.fst ≠ some r.2
              then r.2 + 1 else r.2))) ∧
      (buildTies chan52 segSingle).mapped_ranges = [(10, 50)] ∧
      (extractChannels 52 (buildTies chan52 segSingle).mapped_ranges).length
        = 41 ∧
      50 ∈ extractChannels 52 (buildTies chan52 segSingle).mapped_ranges := by
  have hmr : (buildTies chan52 segSingle).mapped_ranges = [(10, 50)] := by
    norm_num [buildTies, buildTiesAux, argminAbs, argminAbsAux, absQ,
      chan52, segSingle]
  refine ⟨fun ranges i h => adjustRanges_get_eq ranges i h, hmr, ?_, ?_⟩
  · rw [hmr]; decide
  · rw [hmr]; decide

/-- Witness for C3's universally quantified part at the singleton range
list `[(10, 50)]`. -/
theorem apply_mapping_slice_bounds_witness :
    0 < ([((10 : ℕ), (50 : ℕ))] : List (ℕ × ℕ)).length ∧
      (adjustRanges [(10, 50)]).get? 0 =
        (([((10 : ℕ), (50 : ℕ))] : List (ℕ × ℕ)).get? 0).map (fun r =>
          (r.1,
            if 0 = ([((10 : ℕ), (50 : ℕ))] : List (ℕ × ℕ)).length - 1 ∨
                (([((10 : ℕ), (50 : ℕ))] : List (ℕ × ℕ)).get? 1).map
                  Prod.fst ≠ some r.2
            then r.2 + 1 else r.2)) :=
  ⟨by decide, apply_mapping_slice_bounds.1 [(10, 50)] 0 (by decide)⟩

/-- With a positive step, stepping once shrinks the remaining window
count by exactly one. -/
theorem numWindows_step (stop step cur : ℚ) (hstep : 0 < step) :
    numWindows (cur + step) stop step = numWindows cur stop step - 1 := by
  have harg : (stop - (cur + step)) / step = (stop - cur) / step - 1 := by
    field_simp
    ring
  rw [numWindows, numWindows, harg, Int.ceil_sub_one]
  omega

/-- With a positive step, the remaining window count is positive exactly
while the cursor is strictly below the stop time. -/
theorem numWindows_pos_iff (stop step cur : ℚ) (hstep : 0 < step) :
    0 < numWindows cur stop step ↔ cur < stop := by
  rw [numWindows]
  rw [show (0 < (⌈(stop - cur) / step⌉).toNat ↔ 0 < ⌈(stop - cur) / step⌉) from
    by omega]
  rw [Int.ceil_pos]
  constructor
  · intro h
    rcases div_pos_iff.mp h with ⟨ha, _⟩ | ⟨_, hb⟩
    · linarith
    · linarith
  · intro h
    exact div_pos (by linarith) hstep

/-- The fixed-step iteration runs for exactly the computed window count,
given enough fuel. -/
theorem arangeAux_length (step stop : ℚ) (hstep : 0 < step) :
    ∀ (fuel : ℕ) (cur : ℚ), numWindows cur stop step ≤ fuel →
      (arangeAux step stop fuel cur).length = numWindows cur stop step := by
  intro fuel
  induction fuel with
  | zero =>
    intro cur h
    simp only [arangeAux, List.length_nil]
    omega
  | succ n ih =>
    intro cur h
    by_cases hcs : cur < stop
    · have hpos : 0 < numWindows cur stop step :=
        (numWindows_pos_iff stop step cur hstep).mpr hcs
      have hdec := numWindows_step stop step cur hstep
      have hrec := ih (cur + step) (by omega)
      simp only [arangeAux, hcs, if_true, List.length_cons, hrec]
      omega
    · have hz : numWindows cur stop step = 0 := by
        by_contra hnz
        exact hcs ((numWindows_pos_iff stop step cur hstep).mp (by omega))
      simp [arangeAux, hcs, hz]

/-- Each iterated value is the start plus a whole number of steps. -/
theorem arangeAux_get (step stop : ℚ) :
    ∀ (fuel : ℕ) (cur : ℚ) (k : ℕ),
      k < (arangeAux step stop fuel cur).length →
      (arangeAux step stop fuel cur).get? k = some (cur + k * step) := by
  intro fuel
  induction fuel with
  | zero => intro cur k h; simp [arangeAux] at h
  | succ n ih =>
    intro cur k h
    by_cases hcs : cur < stop
    · simp only [arangeAux, hcs, if_true] at h ⊢
      cases k with
      | zero => simp
      | succ j =>
        have hj : j < (arangeAux step stop n (cur + step)).length := by
          simpa using Nat.lt_of_succ_lt_succ h
        have := ih (cur + step) j hj
        rw [List.get?_cons_succ, this]
        congr 1
        push_cast
        ring
    · simp [arangeAux, hcs] at h

/-- C4: the window loop of `run_HV` iterates exactly
`⌈(end - start) / process_len⌉` windows, window `k` starting at
`start + k * process_len`; in particular a stream spanning exactly 7200 s
with `process_len = 3600` yields exactly two windows, at the stream start
and at the stream start + 3600 s. -/
theorem run_HV_window_stepping :
    (∀ start stop p : ℚ, 0 < p →
        (run_HV_windows start stop p).length = (⌈(stop - start) / p⌉).toNat) ∧
      (∀ start stop p : ℚ, 0 < p → ∀ k : ℕ,
        k < (run_HV_windows start stop p).length →
          (run_HV_windows start stop p).get? k = some (start + k * p)) ∧
      (∀ s : ℚ, run_HV_windows s (s + 7200) 3600 = [s, s + 3600]) := by
  refine ⟨?_, ?_, ?_⟩
  · intro start stop p hp
    exact arangeAux_length p stop hp _ start le_rfl
  · intro start stop p hp k hk
    exact arangeAux_get p stop _ start k hk
  · intro s
    have hnum : numWindows s (s + 7200) 3600 = 2 := by
      have h1 : (s + 7200 - s : ℚ) = 7200 := by ring
      rw [numWindows, h1, show ((7200 : ℚ) / 3600) = 2 by norm_num]
      simp
    rw [run_HV_windows, arange, hnum]
    simp [arangeAux, show s < s + 7200 by linarith,
      show s + 3600 < s + 7200 by linarith]

/-- Witness for C4 at `start = 0`, `end = 7200`, `process_len = 3600`. -/
theorem run_HV_window_stepping_witness :
    (0 : ℚ) < 3600 ∧
      (run_HV_windows 0 7200 3600).length = (⌈((7200 : ℚ) - 0) / 3600⌉).toNat :=
  ⟨by norm_num, run_HV_window_stepping.1 0 7200 3600 (by norm_num)⟩

/-- C5: rendering the parameter template is deterministic — equal
parameter assignments give byte-identical output — and for the documented
parameter set with `winLen = 60` and `KO = 0.2` the rendered text contains
the literal lines `WINDOW_MIN_LENGTH(s)=60`, `WINDOW_MAX_LENGTH(s)=60`
and `SMOOTHING_WIDTH=0.2`, while the first line of the template is the
literal `PARAMETERS_VERSION=1` followed by four trailing spaces. -/
theorem get_paramString_rendering :
    (∀ p q : HVParams, p = q → renderParams p = renderParams q) ∧
      "WINDOW_MIN_LENGTH(s)=60" ∈ renderParams claimParams ∧
      "WINDOW_MAX_LENGTH(s)=60" ∈ renderParams claimParams ∧
      "SMOOTHING_WIDTH=0.2" ∈ renderParams claimParams ∧
      (renderParams claimParams).head? = some "PARAMETERS_VERSION=1    " := by
  refine ⟨fun p q h => by rw [h], ?_, ?_, ?_, ?_⟩ <;> decide

/-- Witness for C5's determinism part at the documented parameter set. -/
theorem get_paramString_rendering_witness :
    claimParams = claimParams ∧
      renderParams claimParams = renderParams claimParams :=
  ⟨rfl, get_paramString_rendering.1 claimParams claimParams rfl⟩

/-- C6: an exception while processing one file aborts only that file —
the loop keeps the successes of all other files, in order — and the
driver always finishes with the `"Job Done"` message; in particular with
three files where the second raises, the first and third are still fully
processed. -/
theorem driver_best_effort :
    (∀ (runHV : ℕ → Except Unit ℕ) (files : List ℕ),
        mainLoop runHV files = files.filterMap (fun f => (runHV f).toOption)) ∧
      (∀ (runHV : ℕ → Except Unit ℕ) (files : List ℕ),
        (driver runHV files).2 = "Job Done") ∧
      driver (fun n => if n = 1 then Except.error () else Except.ok n)
          [0, 1, 2] = ([0, 2], "Job Done") := by
  refine ⟨?_, fun _ _ => rfl, by decide⟩
  intro runHV files
  induction files with
  | nil => rfl
  | cons f fs ih =>
    cases hr : runHV f <;>
      simp [mainLoop, hr, ih, List.filterMap_cons, Except.toOption]

end Skience
